import Mathlib

/-!
Verification of the esp-mbedtls hook/dispatch layer.

This file is a shallow embedding of the hook/dispatch layer of
`esp-mbedtls-sys`:

* `src/hook/exp_mod.rs` — the modular-exponentiation hook slot, the
  software square-and-multiply fallback (`FallbackMpiExpMod::exp_mod`),
  and the C-ABI trampoline `mbedtls_mpi_exp_mod`;
* `src/hook/time.rs` — the three time hook slots and their C-ABI
  trampolines `mbedtls_platform_gmtime_r`, `mbedtls_ms_time` and `time`;
* `src/time/esp.rs` — the ESP backend `gmtime_r` conversion and the
  RAII guard `EspTimeGuard` whose `drop` deregisters the hooks.

Arbitrary-precision integers (`mbedtls_mpi`) are modelled as `Nat`
(the claims under verification restrict attention to non-negative
values).  The fallible mbedtls big-integer primitives
(`mbedtls_mpi_lset`, `mbedtls_mpi_copy`, `mbedtls_mpi_mul_mpi`,
`mbedtls_mpi_mod_mpi`) belong to the external mbedtls library; their
functional behaviour on success is exact big-integer arithmetic, and
their ability to fail with a non-zero status code is modelled by an
error oracle `MpiEnv` that assigns a status code to each individual
call, so that every error path of the fallback engine can be exercised.
-/

namespace EspMbedtls

/-! ## Model of the mbedtls MPI primitives used by the fallback engine -/

/-- Model of `mbedtls_mpi_bitlen`: number of significant bits of the value,
`0` for the value `0`.  (External mbedtls primitive.) -/
def mbedtls_mpi_bitlen (y : Nat) : Nat := Nat.size y

/-- Model of `mbedtls_mpi_get_bit`: the i-th bit of the value, as `0` or `1`.
(External mbedtls primitive.) -/
def mbedtls_mpi_get_bit (y i : Nat) : Nat := if y.testBit i then 1 else 0

/-- Error oracle for the fallible mbedtls MPI operations invoked by the
fallback engine.  A field value of `0` means the corresponding call
succeeds; a non-zero value is the status code the call returns.
`mulErr k` (resp. `modErr k`) is the status of the k-th call to
`mbedtls_mpi_mul_mpi` (resp. `mbedtls_mpi_mod_mpi`) made by one run of
the engine, counted from 0. -/
structure MpiEnv where
  lsetErr : Int
  copyErr : Int
  mulErr : Nat → Int
  modErr : Nat → Int

/-- The oracle under which every underlying MPI operation succeeds. -/
def allOk : MpiEnv := ⟨0, 0, fun _ => 0, fun _ => 0⟩

/-- An oracle under which the initial `mbedtls_mpi_lset(z, 1)` fails
with status `-8` and everything else succeeds. -/
def lsetFails : MpiEnv := ⟨-8, 0, fun _ => 0, fun _ => 0⟩

/-- Lifecycle events of the scratch value `base` of the fallback engine:
`init` records the `mbedtls_mpi_init(&mut base)` call, `free` records a
`mbedtls_mpi_free(&mut base)` call. -/
inductive BaseEvent where
  | init : BaseEvent
  | free : BaseEvent
deriving DecidableEq

/-- Number of `init` events in a trace. -/
def countInit : List BaseEvent → Nat
  | [] => 0
  | .init :: es => countInit es + 1
  | .free :: es => countInit es

/-- Number of `free` events in a trace. -/
def countFree : List BaseEvent → Nat
  | [] => 0
  | .init :: es => countFree es
  | .free :: es => countFree es + 1

/-- State threaded through the square-and-multiply loop: the current
value of `z` and the number of multiply / reduce calls made so far
(the counters index the error oracle). -/
structure LoopSt where
  z : Nat
  kmul : Nat
  kmod : Nat

/-- The square-and-multiply loop of `FallbackMpiExpMod::exp_mod`
(src/hook/exp_mod.rs lines 135-161), iterating over the bits of the
exponent `y` from bit `i - 1` down to bit `0`.  Each iteration squares
(`mbedtls_mpi_mul_mpi(z, z, z)` then `mbedtls_mpi_mod_mpi(z, z, m)`)
and, if the current exponent bit is set, multiplies by the scratch copy
`base` of `x` (`mbedtls_mpi_mul_mpi(z, z, base)` then
`mbedtls_mpi_mod_mpi(z, z, m)`).  Any non-zero status from the oracle
aborts the loop with that status, exactly where the source returns. -/
def expModLoop (env : MpiEnv) (base m y : Nat) : Nat → LoopSt → Except Int LoopSt
  | 0, st => .ok st
  | i + 1, st =>
    if env.mulErr st.kmul ≠ 0 then .error (env.mulErr st.kmul) else
    let z1 := st.z * st.z
    if env.modErr st.kmod ≠ 0 then .error (env.modErr st.kmod) else
    let z2 := z1 % m
    if mbedtls_mpi_get_bit y i = 1 then
      if env.mulErr (st.kmul + 1) ≠ 0 then .error (env.mulErr (st.kmul + 1)) else
      let z3 := z2 * base
      if env.modErr (st.kmod + 1) ≠ 0 then .error (env.modErr (st.kmod + 1)) else
      expModLoop env base m y i ⟨z3 % m, st.kmul + 2, st.kmod + 2⟩
    else
      expModLoop env base m y i ⟨z2, st.kmul + 1, st.kmod + 1⟩

/-- Outcome of one run of the fallback engine: the `Result` value
(`.ok z` carrying the final value written through the out-parameter
`z`, or `.error code` carrying the propagated mbedtls status code —
`MbedtlsError` is not under `src/`; modelled from the spec: a typed
wrapper around the numeric status code, passed through unchanged), the
ordered trace of `init`/`free` events on the scratch value `base`, and
the final value referenced by the optional `prec_rr` argument. -/
structure ExpModOut where
  result : Except Int Nat
  events : List BaseEvent
  prec_rr : Option Nat

/-- Core of `FallbackMpiExpMod::exp_mod` (src/hook/exp_mod.rs lines
102-166): set `z = 1` via `mbedtls_mpi_lset` (returning its status on
failure, before the scratch `base` exists); init `base` and copy `x`
into it (on copy failure, free `base` and return the status); run the
square-and-multiply loop over `mbedtls_mpi_bitlen y` bits (on any
failure inside the loop, free `base` and return the status); on
success free `base` and return `Ok` with the final `z`. -/
def FallbackMpiExpMod.run (env : MpiEnv) (x y m : Nat) :
    Except Int Nat × List BaseEvent :=
  if env.lsetErr ≠ 0 then
    (.error env.lsetErr, [])
  else if env.copyErr ≠ 0 then
    (.error env.copyErr, [.init, .free])
  else
    match expModLoop env x m y (mbedtls_mpi_bitlen y) ⟨1, 0, 0⟩ with
    | .error e => (.error e, [.init, .free])
    | .ok st => (.ok st.z, [.init, .free])

/-- `FallbackMpiExpMod::exp_mod`.  The `prec_rr` argument is bound as
`_prec_rr` in the source and never read or written, so the computation
is that of `FallbackMpiExpMod.run` and the value referenced by
`prec_rr` is returned unchanged. -/
def FallbackMpiExpMod.exp_mod (env : MpiEnv) (x y m : Nat)
    ( _prec_rr : Option Nat) : ExpModOut :=
  { result := (FallbackMpiExpMod.run env x y m).1
    events := (FallbackMpiExpMod.run env x y m).2
    prec_rr := _prec_rr }

/-! ## Hook slots and capabilities -/

/-- A capability implementing the `MbedtlsMpiExpMod` trait: given
`x`, `y`, `m` and the optional `prec_rr` referent, produce the new `z`
or a status code. -/
def MbedtlsMpiExpMod : Type := Nat → Nat → Nat → Option Nat → Except Int Nat

/-- A capability implementing the `MbedtlsTime` trait (`time(&self) -> i64`). -/
def MbedtlsTime : Type := Unit → Int

/-- A capability implementing the `MbedtlsMsTime` trait (`ms_time(&self) -> i64`). -/
def MbedtlsMsTime : Type := Unit → Int

/-- The `MbedtlsTm` record (`struct tm` layout): nine signed fields. -/
structure MbedtlsTm where
  tm_sec : Int
  tm_min : Int
  tm_hour : Int
  tm_mday : Int
  tm_mon : Int
  tm_year : Int
  tm_wday : Int
  tm_yday : Int
  tm_isdst : Int
deriving DecidableEq

/-- A capability implementing the `MbedtlsGmtimeR` trait: convert a
timestamp, filling the broken-down time buffer, or fail with `()`. -/
def MbedtlsGmtimeR : Type := Int → MbedtlsTm → Except Unit MbedtlsTm

/-- The global hook slots (`EXP_MOD` in src/hook/exp_mod.rs; `GMTIME_R`,
`MS_TIME`, `TIME` in src/hook/time.rs) and the ESP backend's RTC
reference cell (`ESP_TIME.rtc` in src/time/esp.rs, modelled as the
microsecond reading the referenced RTC would deliver).  Each slot holds
at most one installed capability. -/
structure HookState where
  exp_mod : Option MbedtlsMpiExpMod
  gmtime_r : Option MbedtlsGmtimeR
  ms_time : Option MbedtlsMsTime
  time : Option MbedtlsTime
  rtc : Option Int

/-- The state in which no hook is installed anywhere. -/
def emptyHooks : HookState := ⟨none, none, none, none, none⟩

/-- `hook_exp_mod` (src/hook/exp_mod.rs lines 56-67): store the given
occupant (possibly `None`) into the `EXP_MOD` slot. -/
def hook_exp_mod (c : Option MbedtlsMpiExpMod) (s : HookState) : HookState :=
  { s with exp_mod := c }

/-- `hook_gmtime_r` (src/hook/time.rs lines 98-109). -/
def hook_gmtime_r (c : Option MbedtlsGmtimeR) (s : HookState) : HookState :=
  { s with gmtime_r := c }

/-- `hook_ms_time` (src/hook/time.rs lines 119-130). -/
def hook_ms_time (c : Option MbedtlsMsTime) (s : HookState) : HookState :=
  { s with ms_time := c }

/-- `hook_time` (src/hook/time.rs lines 140-151). -/
def hook_time (c : Option MbedtlsTime) (s : HookState) : HookState :=
  { s with time := c }

/-- A sequence of `hook_time` calls applied in order. -/
def applyHookTimeCalls (s : HookState) (calls : List (Option MbedtlsTime)) : HookState :=
  calls.foldl (fun st c => hook_time c st) s

/-! ## The exponentiation trampoline -/

/-- `result.map_or_else(|e| e.code(), |_| 0)`: status 0 on success,
the error's numeric code otherwise (`MbedtlsError` is not under `src/`;
modelled from the spec: the code stored by `MbedtlsError::new` is
returned unchanged by `code()`). -/
def errCode : Except Int Nat → Int
  | .ok _ => 0
  | .error e => e

/-- Body of the trampoline `mbedtls_mpi_exp_mod` after the raw pointers
have been dereferenced (src/hook/exp_mod.rs lines 178-184): read the
`EXP_MOD` slot; if occupied, invoke the installed capability, otherwise
invoke `EXP_MOD_FALLBACK`; map the `Result` to a status code, returning
also the value written through `z` on success (`none` when the call
failed and `z` holds no defined result). -/
def mbedtls_mpi_exp_mod_impl (s : HookState) (env : MpiEnv) (x y m : Nat)
    (prec : Option Nat) : Int × Option Nat :=
  let result : Except Int Nat :=
    match s.exp_mod with
    | some cap => cap x y m prec
    | none => (FallbackMpiExpMod.exp_mod env x y m prec).result
  match result with
  | .ok z => (0, some z)
  | .error e => (e, none)

/-- The C-ABI trampoline `mbedtls_mpi_exp_mod` (src/hook/exp_mod.rs
lines 171-185).  Each pointer argument is modelled as an `Option`
(`none` = null).  The source performs no null check: it dereferences
`z`, `x`, `y`, `m` unconditionally (`&mut *z, &*x, &*y, &*m`), which on
a null argument is a null-pointer dereference; that undefined outcome
is modelled as the result `none`.  Only `prec_rr` is null-checked, via
`prec_rr.as_mut()`, which yields `None` for a null pointer. -/
def mbedtls_mpi_exp_mod (s : HookState) (env : MpiEnv)
    (z x y m : Option Nat) (prec_rr : Option Nat) : Option (Int × Option Nat) :=
  match z, x, y, m with
  | some _, some xv, some yv, some mv =>
    some (mbedtls_mpi_exp_mod_impl s env xv yv mv prec_rr)
  | _, _, _, _ => none

/-! ## The time trampolines -/

/-- The C-ABI trampoline `mbedtls_platform_gmtime_r` (src/hook/time.rs
lines 176-202).  Null arguments (`none`) are rejected up front with a
null return; otherwise the `GMTIME_R` slot is read and the installed
capability invoked, an empty slot yielding `Err(())`; `Ok` maps to the
filled buffer (the non-null `tm_buf` return), `Err` to the null
return.  The output `none` is the null-pointer return. -/
def mbedtls_platform_gmtime_r (s : HookState) (tt : Option Int)
    (tm_buf : Option MbedtlsTm) : Option MbedtlsTm :=
  match tt, tm_buf with
  | some t, some buf =>
    let result : Except Unit MbedtlsTm :=
      match s.gmtime_r with
      | some cap => cap t buf
      | none => .error ()
    match result with
    | .ok tm => some tm
    | .error _ => none
  | _, _ => none

/-- The C-ABI trampoline `mbedtls_ms_time` (src/hook/time.rs lines
209-217): invoke the installed `MS_TIME` capability, or return `0`
when the slot is empty. -/
def mbedtls_ms_time (s : HookState) : Int :=
  match s.ms_time with
  | some cap => cap ()
  | none => 0

/-- The C-ABI trampoline `time` (src/hook/time.rs lines 222-238):
invoke the installed `TIME` capability, or take `0` when the slot is
empty; store the value through `timer` when that pointer is non-null;
return the value.  The second component is the final referent of
`timer` (`none` when `timer` is null). -/
def time (s : HookState) (timer : Option Int) : Int × Option Int :=
  let current_time : Int :=
    match s.time with
    | some cap => cap ()
    | none => 0
  (current_time,
    match timer with
    | some _ => some current_time
    | none => none)

/-! ## The ESP time backend and its registration guard -/

/-- A civil (proleptic Gregorian, UTC) date-time, as produced by the
external `time` crate's `OffsetDateTime`. -/
structure CivilDateTime where
  year : Int
  month : Int
  day : Int
  hour : Int
  minute : Int
  second : Int
  ordinal : Int
  wday : Int
deriving DecidableEq

/-- Convert a day count relative to 1970-01-01 to a civil date
`(year, month, day)` (standard civil-from-days conversion of the
proleptic Gregorian calendar, as implemented by the external `time`
crate). -/
def civilFromDays (days : Int) : Int × Int × Int :=
  let z := days + 719468
  let era := Int.ediv z 146097
  let doe := z - era * 146097
  let yoe := Int.ediv (doe - Int.ediv doe 1460 + Int.ediv doe 36524 - Int.ediv doe 146096) 365
  let y := yoe + era * 400
  let doy := doe - (365 * yoe + Int.ediv yoe 4 - Int.ediv yoe 100)
  let mp := Int.ediv (5 * doy + 2) 153
  let d := doy - Int.ediv (153 * mp + 2) 5 + 1
  let mon := if mp < 10 then mp + 3 else mp - 9
  (if mon ≤ 2 then y + 1 else y, mon, d)

/-- Convert a civil date to a day count relative to 1970-01-01
(standard days-from-civil conversion, inverse of `civilFromDays`). -/
def daysFromCivil (y mon d : Int) : Int :=
  let y1 := if mon ≤ 2 then y - 1 else y
  let era := Int.ediv y1 400
  let yoe := y1 - era * 400
  let mp := if 2 < mon then mon - 3 else mon + 9
  let doy := Int.ediv (153 * mp + 2) 5 + d - 1
  let doe := yoe * 365 + Int.ediv yoe 4 - Int.ediv yoe 100 + doy
  era * 146097 + doe - 719468

/-- Modelled from the external `time` crate's documented behaviour:
`OffsetDateTime::from_unix_timestamp` converts a Unix timestamp to a
UTC date-time, failing (with a component-range error) when the
resulting date falls outside the crate's representable year range
-9999 ..= 9999.  `ordinal` is the 1-based day of the year, `wday` the
number of days from Sunday (1970-01-01 was a Thursday, day 4). -/
def fromUnixTimestamp (t : Int) : Option CivilDateTime :=
  let days := Int.ediv t 86400
  let sod := Int.emod t 86400
  let c := civilFromDays days
  if c.1 < -9999 ∨ 9999 < c.1 then none
  else
    some
      { year := c.1
        month := c.2.1
        day := c.2.2
        hour := Int.ediv sod 3600
        minute := Int.ediv (Int.emod sod 3600) 60
        second := Int.emod sod 60
        ordinal := days - daysFromCivil c.1 1 1 + 1
        wday := Int.emod (days + 4) 7 }

/-- `EspTimeBackend::gmtime_r` (src/time/esp.rs lines 49-68): convert
the timestamp with `OffsetDateTime::from_unix_timestamp`, mapping a
conversion error to `Err(())` before any field of the buffer is
written; on success fill all nine fields: seconds, minutes, hours,
day-of-month, month as 0-11 (`u8::from(month) - 1`), years since 1900,
weekday as days-from-Sunday, 0-based day-of-year (`ordinal - 1`), and
DST flag `-1`. -/
def EspTimeBackend.gmtime_r (t : Int) ( _tm_buf : MbedtlsTm) :
    Except Unit MbedtlsTm :=
  match fromUnixTimestamp t with
  | none => .error ()
  | some dt =>
    .ok
      { tm_sec := dt.second
        tm_min := dt.minute
        tm_hour := dt.hour
        tm_mday := dt.day
        tm_mon := dt.month - 1
        tm_year := dt.year - 1900
        tm_wday := dt.wday
        tm_yday := dt.ordinal - 1
        tm_isdst := -1 }

/-- `EspTimeGuard::drop` (src/time/esp.rs lines 105-119): unconditionally
deregister the three time hooks (`hook_time(None)`, `hook_ms_time(None)`,
`hook_gmtime_r(None)`) and clear the RTC reference cell. -/
def EspTimeGuard.drop (s : HookState) : HookState :=
  let s1 := hook_time none s
  let s2 := hook_ms_time none s1
  let s3 := hook_gmtime_r none s2
  { s3 with rtc := none }

/-! ## Helper lemmas -/

/-- Unfolding of one loop iteration under `allOk` when the current
exponent bit is set. -/
theorem expModLoop_allOk_succ_bit (x m y j : Nat) (st : LoopSt)
    (hbf : y.testBit j = true) :
    expModLoop allOk x m y (j + 1) st
      = expModLoop allOk x m y j ⟨(st.z * st.z % m) * x % m, st.kmul + 2, st.kmod + 2⟩ := by
  show (if (0 : Int) ≠ 0 then _ else _) = _
  rw [if_neg (by omega)]
  show (if (0 : Int) ≠ 0 then _ else _) = _
  rw [if_neg (by omega)]
  show (if mbedtls_mpi_get_bit y j = 1 then _ else _) = _
  rw [if_pos (by simp [mbedtls_mpi_get_bit, hbf])]
  show (if (0 : Int) ≠ 0 then _ else _) = _
  rw [if_neg (by omega)]
  show (if (0 : Int) ≠ 0 then _ else _) = _
  rw [if_neg (by omega)]

/-- Unfolding of one loop iteration under `allOk` when the current
exponent bit is clear. -/
theorem expModLoop_allOk_succ_nobit (x m y j : Nat) (st : LoopSt)
    (hbf : y.testBit j = false) :
    expModLoop allOk x m y (j + 1) st
      = expModLoop allOk x m y j ⟨st.z * st.z % m, st.kmul + 1, st.kmod + 1⟩ := by
  show (if (0 : Int) ≠ 0 then _ else _) = _
  rw [if_neg (by omega)]
  show (if (0 : Int) ≠ 0 then _ else _) = _
  rw [if_neg (by omega)]
  show (if mbedtls_mpi_get_bit y j = 1 then _ else _) = _
  rw [if_neg (by simp [mbedtls_mpi_get_bit, hbf])]

/-- Loop invariant of the square-and-multiply loop: entering the loop
with `i` bits left to process and `z` congruent to `x ^ (y / 2 ^ i)`
modulo `m`, the loop succeeds under `allOk` and delivers a final `z`
congruent to `x ^ y` modulo `m`, reduced below `m` whenever at least
one iteration ran. -/
theorem expModLoop_allOk_correct (x m : Nat) (hm : 0 < m) (y : Nat) :
    ∀ (i : Nat) (st : LoopSt), st.z % m = x ^ (y / 2 ^ i) % m →
      ∃ st', expModLoop allOk x m y i st = .ok st'
        ∧ st'.z % m = x ^ y % m ∧ (i = 0 → st'.z = st.z) ∧ (0 < i → st'.z < m) := by
  intro i
  induction i with
  | zero =>
    intro st h
    refine ⟨st, rfl, ?_, fun _ => rfl, fun h0 => absurd h0 (by omega)⟩
    simpa using h
  | succ j ih =>
    intro st h
    have hdm := Nat.div_add_mod (y / 2 ^ j) 2
    have hr2 : y / 2 ^ j / 2 = y / 2 ^ (j + 1) := by
      rw [Nat.div_div_eq_div_mul, ← pow_succ]
    cases hbit : y.testBit j with
    | true =>
      have h1 := Nat.testBit_to_div_mod (x := y) (i := j)
      rw [hbit] at h1
      have hb1 : y / 2 ^ j % 2 = 1 := of_decide_eq_true h1.symm
      have hr : y / 2 ^ j = 2 * (y / 2 ^ (j + 1)) + 1 := by omega
      have hst2 : ((st.z * st.z % m) * x % m) % m = x ^ (y / 2 ^ j) % m := by
        have hz1 : Nat.ModEq m st.z (x ^ (y / 2 ^ (j + 1))) := h
        have hz2 : Nat.ModEq m (st.z * st.z * x)
            (x ^ (y / 2 ^ (j + 1)) * x ^ (y / 2 ^ (j + 1)) * x) :=
          Nat.ModEq.mul_right x (Nat.ModEq.mul hz1 hz1)
        calc ((st.z * st.z % m) * x % m) % m
            = (st.z * st.z % m) * x % m := Nat.mod_mod_of_dvd _ dvd_rfl
          _ = st.z * st.z * x % m := Nat.mod_mul_mod
          _ = x ^ (y / 2 ^ (j + 1)) * x ^ (y / 2 ^ (j + 1)) * x % m := hz2
          _ = x ^ (y / 2 ^ j) % m := by rw [hr]; ring_nf
      obtain ⟨st', heq, hmod, hzero, hpos⟩ :=
        ih ⟨(st.z * st.z % m) * x % m, st.kmul + 2, st.kmod + 2⟩ hst2
      refine ⟨st', ?_, hmod, fun h0 => absurd h0 (by omega), fun _ => ?_⟩
      · rw [expModLoop_allOk_succ_bit x m y j st hbit]
        exact heq
      · rcases Nat.eq_zero_or_pos j with hj | hj
        · rw [hzero hj]
          exact Nat.mod_lt _ hm
        · exact hpos hj
    | false =>
      have h1 := Nat.testBit_to_div_mod (x := y) (i := j)
      rw [hbit] at h1
      have hb0 : ¬ y / 2 ^ j % 2 = 1 := of_decide_eq_false h1.symm
      have hr : y / 2 ^ j = 2 * (y / 2 ^ (j + 1)) := by omega
      have hst2 : (st.z * st.z % m) % m = x ^ (y / 2 ^ j) % m := by
        have hz1 : Nat.ModEq m st.z (x ^ (y / 2 ^ (j + 1))) := h
        have hz2 : Nat.ModEq m (st.z * st.z)
            (x ^ (y / 2 ^ (j + 1)) * x ^ (y / 2 ^ (j + 1))) := Nat.ModEq.mul hz1 hz1
        calc (st.z * st.z % m) % m
            = st.z * st.z % m := Nat.mod_mod_of_dvd _ dvd_rfl
          _ = x ^ (y / 2 ^ (j + 1)) * x ^ (y / 2 ^ (j + 1)) % m := hz2
          _ = x ^ (y / 2 ^ j) % m := by rw [hr]; ring_nf
      obtain ⟨st', heq, hmod, hzero, hpos⟩ :=
        ih ⟨st.z * st.z % m, st.kmul + 1, st.kmod + 1⟩ hst2
      refine ⟨st', ?_, hmod, fun h0 => absurd h0 (by omega), fun _ => ?_⟩
      · rw [expModLoop_allOk_succ_nobit x m y j st hbit]
        exact heq
      · rcases Nat.eq_zero_or_pos j with hj | hj
        · rw [hzero hj]
          exact Nat.mod_lt _ hm
        · exact hpos hj

/-- Under the all-success oracle the fallback engine returns
`Ok (x ^ y % m)` for any modulus `m > 1`, and its event trace is one
`init` followed by one `free` of the scratch `base`. -/
theorem fallback_run_allOk (x y m : Nat) (hm : 1 < m) :
    FallbackMpiExpMod.run allOk x y m = (.ok (x ^ y % m), [.init, .free]) := by
  have hm0 : 0 < m := by omega
  have hseed : (⟨1, 0, 0⟩ : LoopSt).z % m = x ^ (y / 2 ^ mbedtls_mpi_bitlen y) % m := by
    have hy : y / 2 ^ Nat.size y = 0 := Nat.div_eq_of_lt (Nat.lt_size_self y)
    simp [mbedtls_mpi_bitlen, hy]
  obtain ⟨st', heq, hmod, hzero, hpos⟩ :=
    expModLoop_allOk_correct x m hm0 y (mbedtls_mpi_bitlen y) ⟨1, 0, 0⟩ hseed
  have hz : st'.z = x ^ y % m := by
    rcases Nat.eq_zero_or_pos (mbedtls_mpi_bitlen y) with hb | hb
    · have hy0 : y = 0 := Nat.size_eq_zero.mp hb
      rw [hzero hb, hy0]
      simp [Nat.mod_eq_of_lt hm]
    · rw [← Nat.mod_eq_of_lt (hpos hb)]
      exact hmod
  show (if (0 : Int) ≠ 0 then _ else _) = _
  rw [if_neg (by omega)]
  show (if (0 : Int) ≠ 0 then _ else _) = _
  rw [if_neg (by omega)]
  rw [heq]
  show (Except.ok st'.z, [BaseEvent.init, BaseEvent.free]) = _
  rw [hz]

/-- The event trace of a run of the fallback engine is `[]` exactly on
the lset-failure path and `[init, free]` on every other path. -/
theorem run_events (env : MpiEnv) (x y m : Nat) :
    (FallbackMpiExpMod.run env x y m).2 = [] ∧ env.lsetErr ≠ 0
    ∨ (FallbackMpiExpMod.run env x y m).2 = [.init, .free] ∧ env.lsetErr = 0 := by
  unfold FallbackMpiExpMod.run
  by_cases h1 : env.lsetErr ≠ 0
  · rw [if_pos h1]
    exact Or.inl ⟨rfl, h1⟩
  · rw [if_neg h1]
    by_cases h2 : env.copyErr ≠ 0
    · rw [if_pos h2]
      exact Or.inr ⟨rfl, not_not.mp h1⟩
    · rw [if_neg h2]
      cases hL : expModLoop env x m y (mbedtls_mpi_bitlen y) ⟨1, 0, 0⟩ with
      | error e => exact Or.inr ⟨rfl, not_not.mp h1⟩
      | ok st => exact Or.inr ⟨rfl, not_not.mp h1⟩

/-- With an exponent of bit-length zero the loop body never runs and
the engine under `allOk` returns `Ok 1` with the usual trace. -/
theorem run_allOk_bitlen_zero (x y m : Nat) (hy : mbedtls_mpi_bitlen y = 0) :
    FallbackMpiExpMod.run allOk x y m = (.ok 1, [.init, .free]) := by
  have h0 : expModLoop allOk x m y (mbedtls_mpi_bitlen y) ⟨1, 0, 0⟩ = .ok ⟨1, 0, 0⟩ := by
    rw [hy]
    rfl
  show (if (0 : Int) ≠ 0 then _ else _) = _
  rw [if_neg (by omega)]
  show (if (0 : Int) ≠ 0 then _ else _) = _
  rw [if_neg (by omega)]
  rw [h0]

/-! ## Claim theorems -/

/-- C1: for all non-negative `x`, `y`, `m` with `m > 1`, the fallback
exponentiation engine (invoked when no hook is installed) computes
`z = x ^ y mod m` with status `Ok`, by left-to-right square-and-multiply
over the bits of `y`; in particular, with no hook installed, the
trampoline at `x = 5`, `y = 117`, `m = 19` returns `z = 1` and
status `0`. -/
theorem C1_fallback_exp_mod_correct (x y m : Nat) (prec : Option Nat) (hm : 1 < m) :
    (FallbackMpiExpMod.exp_mod allOk x y m prec).result = .ok (x ^ y % m)
    ∧ mbedtls_mpi_exp_mod emptyHooks allOk (some 0) (some 5) (some 117) (some 19) none
        = some (0, some 1) := by
  constructor
  · show (FallbackMpiExpMod.run allOk x y m).1 = _
    rw [fallback_run_allOk x y m hm]
  · have hres : (FallbackMpiExpMod.exp_mod allOk 5 117 19 none).result = .ok 1 := by
      show (FallbackMpiExpMod.run allOk 5 117 19).1 = _
      rw [fallback_run_allOk 5 117 19 (by omega)]
      show Except.ok (5 ^ 117 % 19) = _
      rw [show (5 : Nat) ^ 117 % 19 = 1 by decide]
    have himp : mbedtls_mpi_exp_mod emptyHooks allOk (some 0) (some 5) (some 117)
        (some 19) none = some (mbedtls_mpi_exp_mod_impl emptyHooks allOk 5 117 19 none) := rfl
    have himp2 : mbedtls_mpi_exp_mod_impl emptyHooks allOk 5 117 19 none
        = match (FallbackMpiExpMod.exp_mod allOk 5 117 19 none).result with
          | .ok z => ((0 : Int), some z)
          | .error er => (er, none) := rfl
    rw [himp, himp2, hres]

/-- Witness for C1 at `x = 5`, `y = 117`, `m = 19`. -/
theorem C1_fallback_exp_mod_correct_witness :
    (FallbackMpiExpMod.exp_mod allOk 5 117 19 none).result = .ok 1
    ∧ mbedtls_mpi_exp_mod emptyHooks allOk (some 0) (some 5) (some 117) (some 19) none
        = some (0, some 1) := by
  have h := C1_fallback_exp_mod_correct 5 117 19 none (by decide)
  have e : (5 : Nat) ^ 117 % 19 = 1 := by decide
  rw [e] at h
  exact h

/-- C2 counterexample: when the initial `mbedtls_mpi_lset(z, 1)` fails
(status `-8`), the engine returns that status without the scratch
`base` ever being initialized or freed — the event trace is empty, so
`base` is released zero times, not exactly once as the claim states
for this exit path. -/
theorem C2_cex_lset_failure_no_free :
    (FallbackMpiExpMod.exp_mod lsetFails 5 117 19 none).result = .error (-8)
    ∧ countFree (FallbackMpiExpMod.exp_mod lsetFails 5 117 19 none).events = 0 :=
  ⟨rfl, rfl⟩

/-- C2 (amended): on every exit path of the fallback engine the scratch
`base` is freed exactly as many times as it is initialized and at most
once (no leak, no double free); on every exit path other than the
lset-failure path — where `base` is never initialized — it is freed
exactly once. -/
theorem C2_scratch_freed_once (env : MpiEnv) (x y m : Nat) (prec : Option Nat) :
    countFree (FallbackMpiExpMod.exp_mod env x y m prec).events
      = countInit (FallbackMpiExpMod.exp_mod env x y m prec).events
    ∧ countFree (FallbackMpiExpMod.exp_mod env x y m prec).events ≤ 1
    ∧ (env.lsetErr = 0 →
        countFree (FallbackMpiExpMod.exp_mod env x y m prec).events = 1) := by
  show countFree (FallbackMpiExpMod.run env x y m).2
      = countInit (FallbackMpiExpMod.run env x y m).2
    ∧ countFree (FallbackMpiExpMod.run env x y m).2 ≤ 1
    ∧ (env.lsetErr = 0 → countFree (FallbackMpiExpMod.run env x y m).2 = 1)
  rcases run_events env x y m with ⟨h, hne⟩ | ⟨h, heq⟩
  · rw [h]
    exact ⟨rfl, by decide, fun h0 => absurd h0 hne⟩
  · rw [h]
    exact ⟨rfl, by decide, fun _ => rfl⟩

/-- Witness for C2 under the all-success oracle. -/
theorem C2_scratch_freed_once_witness :
    countFree (FallbackMpiExpMod.exp_mod allOk 5 117 19 none).events = 1 :=
  (C2_scratch_freed_once allOk 5 117 19 none).2.2 rfl

/-- C3 counterexample: the exponentiation trampoline performs no null
check — called with a null `z` (and otherwise valid arguments) it
dereferences the null pointer (modelled as the outcome `none`) instead
of returning a non-zero status, refuting the claim for this
trampoline. -/
theorem C3_cex_exp_mod_trampoline_derefs_null :
    mbedtls_mpi_exp_mod emptyHooks allOk none (some 5) (some 117) (some 19) none
      = none := rfl

/-- C3 (amended): the calendar-conversion trampoline rejects null
required pointers with a null return before dereferencing them and
without invoking any capability (the result is the same for every slot
state); the exponentiation trampoline performs no null check and
dereferences its required pointer arguments unconditionally (modelled
as the undefined outcome `none`). -/
theorem C3_null_pointer_handling (s : HookState) (env : MpiEnv) :
    (∀ (tt : Option Int) (buf : Option MbedtlsTm), tt = none ∨ buf = none →
        mbedtls_platform_gmtime_r s tt buf = none)
    ∧ (∀ (z x y m prec : Option Nat), z = none ∨ x = none ∨ y = none ∨ m = none →
        mbedtls_mpi_exp_mod s env z x y m prec = none) := by
  constructor
  · intro tt buf h
    cases tt with
    | none => cases buf <;> rfl
    | some t =>
      cases buf with
      | none => rfl
      | some b => rcases h with h | h <;> exact absurd h (by simp)
  · intro z x y m prec h
    cases z <;> cases x <;> cases y <;> cases m <;>
      first
      | rfl
      | (rcases h with h | h | h | h <;> simp_all)

/-- Witness for C3 at a null timestamp pointer. -/
theorem C3_null_pointer_handling_witness :
    mbedtls_platform_gmtime_r emptyHooks none (some ⟨0, 0, 0, 0, 0, 0, 0, 0, 0⟩) = none :=
  (C3_null_pointer_handling emptyHooks allOk).1 none
    (some ⟨0, 0, 0, 0, 0, 0, 0, 0, 0⟩) (Or.inl rfl)

/-- C4: with a capability installed in the slot the trampoline forwards
the arguments to it and returns its result — error codes passed through
unchanged, a successful dispatch returning status `0` together with the
capability's `z` — and the fallback is not invoked (the outcome is
independent of the oracle `env` that drives the fallback); with the
slot empty it forwards to the fallback engine and maps its result the
same way. -/
theorem C4_trampoline_dispatch (cap : MbedtlsMpiExpMod) (s : HookState)
    (env env2 : MpiEnv) (x y m : Nat) (prec : Option Nat) :
    mbedtls_mpi_exp_mod_impl (hook_exp_mod (some cap) s) env x y m prec
        = mbedtls_mpi_exp_mod_impl (hook_exp_mod (some cap) s) env2 x y m prec
    ∧ (∀ e : Int, cap x y m prec = .error e →
        mbedtls_mpi_exp_mod_impl (hook_exp_mod (some cap) s) env x y m prec = (e, none))
    ∧ (∀ z : Nat, cap x y m prec = .ok z →
        mbedtls_mpi_exp_mod_impl (hook_exp_mod (some cap) s) env x y m prec = (0, some z))
    ∧ mbedtls_mpi_exp_mod_impl (hook_exp_mod none s) env x y m prec
        = (errCode (FallbackMpiExpMod.exp_mod env x y m prec).result,
           (FallbackMpiExpMod.exp_mod env x y m prec).result.toOption) := by
  refine ⟨rfl, ?_, ?_, ?_⟩
  · intro e he
    simp only [mbedtls_mpi_exp_mod_impl, hook_exp_mod]
    rw [he]
  · intro z hz
    simp only [mbedtls_mpi_exp_mod_impl, hook_exp_mod]
    rw [hz]
  · cases hr : (FallbackMpiExpMod.exp_mod env x y m prec).result with
    | error e =>
      simp only [mbedtls_mpi_exp_mod_impl, hook_exp_mod, hr, errCode, Except.toOption]
    | ok z =>
      simp only [mbedtls_mpi_exp_mod_impl, hook_exp_mod, hr, errCode, Except.toOption]

/-- Witness for C4: an installed capability that always fails with
code `-70` makes the trampoline return `-70`. -/
theorem C4_trampoline_dispatch_witness :
    mbedtls_mpi_exp_mod_impl
      (hook_exp_mod (some fun _ _ _ _ => .error (-70)) emptyHooks)
      allOk 5 117 19 none = (-70, none) :=
  (C4_trampoline_dispatch (fun _ _ _ _ => .error (-70)) emptyHooks allOk lsetFails
    5 117 19 none).2.1 (-70) rfl

/-- C5 counterexample: at `m = 1` (a non-zero modulus) and exponent of
bit-length zero the engine returns `z = 1`, but `1 mod m = 0`, so the
claimed equality `z = 1 mod m` fails. -/
theorem C5_cex_modulus_one :
    (FallbackMpiExpMod.exp_mod allOk 5 0 1 none).result = .ok 1
    ∧ (1 : Nat) % 1 = 0 := by
  refine ⟨?_, rfl⟩
  show (FallbackMpiExpMod.run allOk 5 0 1).1 = _
  rw [run_allOk_bitlen_zero 5 0 1 (Nat.size_eq_zero.mpr rfl)]

/-- C5 (amended): for an exponent of bit-length zero the engine
performs zero loop iterations and returns `z = 1` — which equals
`1 mod m` for every modulus `m > 1`, but not for `m = 1`, where the
code still returns `1`. -/
theorem C5_zero_bitlen_returns_one (x y m : Nat) (prec : Option Nat)
    (hy : mbedtls_mpi_bitlen y = 0) :
    (FallbackMpiExpMod.exp_mod allOk x y m prec).result = .ok 1 := by
  show (FallbackMpiExpMod.run allOk x y m).1 = _
  rw [run_allOk_bitlen_zero x y m hy]

/-- Witness for C5 at `x = 5`, `y = 0`, `m = 19`. -/
theorem C5_zero_bitlen_returns_one_witness :
    (FallbackMpiExpMod.exp_mod allOk 5 0 19 none).result = .ok 1 :=
  C5_zero_bitlen_returns_one 5 0 19 none (Nat.size_eq_zero.mpr rfl)

/-- C6: releasing the time registration guard clears the three time
hook slots and the RTC reference unconditionally — for every prior
state, including one in which some other caller re-installed different
capabilities after the registration, the slots are empty after the
drop. -/
theorem C6_guard_drop_clears_slots (s : HookState) :
    (EspTimeGuard.drop s).time = none
    ∧ (EspTimeGuard.drop s).ms_time = none
    ∧ (EspTimeGuard.drop s).gmtime_r = none
    ∧ (EspTimeGuard.drop s).rtc = none :=
  ⟨rfl, rfl, rfl, rfl⟩

/-- C7: install and remove on a hook slot obey overwrite and idempotence
laws — installing places the occupant in the slot, installing twice
leaves exactly the last occupant, removing from an empty slot is a
no-op, and after any non-empty sequence of install/remove calls the
slot holds exactly the argument of the last call; likewise for the
exponentiation slot. -/
theorem C7_install_remove_laws :
    (∀ (s : HookState) (a : Option MbedtlsTime), (hook_time a s).time = a)
    ∧ (∀ (s : HookState) (a b : Option MbedtlsTime),
        hook_time b (hook_time a s) = hook_time b s)
    ∧ (∀ s : HookState, s.time = none → hook_time none s = s)
    ∧ (∀ (s : HookState) (calls : List (Option MbedtlsTime)) (c : Option MbedtlsTime),
        (applyHookTimeCalls s (calls ++ [c])).time = c)
    ∧ (∀ (s : HookState) (a : Option MbedtlsMpiExpMod), (hook_exp_mod a s).exp_mod = a)
    ∧ (∀ (s : HookState) (a b : Option MbedtlsMpiExpMod),
        hook_exp_mod b (hook_exp_mod a s) = hook_exp_mod b s)
    ∧ (∀ s : HookState, s.exp_mod = none → hook_exp_mod none s = s) := by
  refine ⟨fun s a => rfl, fun s a b => rfl, ?_, ?_, fun s a => rfl, fun s a b => rfl, ?_⟩
  · intro s h
    cases s with
    | mk e g ms t r =>
      have h' : t = none := h
      subst h'
      rfl
  · intro s calls c
    unfold applyHookTimeCalls
    rw [List.foldl_append]
    rfl
  · intro s h
    cases s with
    | mk e g ms t r =>
      have h' : e = none := h
      subst h'
      rfl

/-- Witness for C7: removing from the empty state is a no-op. -/
theorem C7_install_remove_laws_witness : hook_time none emptyHooks = emptyHooks :=
  C7_install_remove_laws.2.2.1 emptyHooks rfl

/-- C8 counterexample: with no hook installed, the calendar-conversion
trampoline called with valid pointers returns the null pointer — the
`gmtime_r` failure indicator — not a populated sentinel value, refuting
the claim for this trampoline. -/
theorem C8_cex_gmtime_absent_hook_fails :
    mbedtls_platform_gmtime_r emptyHooks (some 0) (some ⟨0, 0, 0, 0, 0, 0, 0, 0, 0⟩)
      = none := rfl

/-- C8 (amended): with no hook installed the seconds and milliseconds
trampolines return the sentinel `0` (the seconds trampoline also
storing `0` through a non-null `timer`), while the calendar-conversion
trampoline returns the null-pointer failure indicator. -/
theorem C8_absent_hook_defaults (s : HookState) (timer : Option Int)
    (tt : Int) (buf : MbedtlsTm) :
    (s.ms_time = none → mbedtls_ms_time s = 0)
    ∧ (s.time = none → time s timer = (0, timer.map fun _ => 0))
    ∧ (s.gmtime_r = none →
        mbedtls_platform_gmtime_r s (some tt) (some buf) = none) := by
  refine ⟨?_, ?_, ?_⟩
  · intro h
    simp [mbedtls_ms_time, h]
  · intro h
    cases timer <;> simp [time, h]
  · intro h
    simp [mbedtls_platform_gmtime_r, h]

/-- Witness for C8 on the empty hook state. -/
theorem C8_absent_hook_defaults_witness : mbedtls_ms_time emptyHooks = 0 :=
  (C8_absent_hook_defaults emptyHooks (some 7) 0 ⟨0, 0, 0, 0, 0, 0, 0, 0, 0⟩).1 rfl

/-- C9: the calendar-conversion capability at Unix timestamp `0`
succeeds with seconds 0, minutes 0, hours 0, day-of-month 1, month 0
(January), years-since-1900 70, weekday 4 (Thursday), day-of-year 0;
for a timestamp that cannot be represented it fails without populating
the record, and the trampoline maps that failure to a null-pointer
return (shown at the out-of-range timestamp 253402300800, one second
past year 9999). -/
theorem C9_gmtime_r_epoch (buf : MbedtlsTm) :
    EspTimeBackend.gmtime_r 0 buf = .ok ⟨0, 0, 0, 1, 0, 70, 4, 0, -1⟩
    ∧ (∀ (t : Int) (b : MbedtlsTm), fromUnixTimestamp t = none →
        EspTimeBackend.gmtime_r t b = .error ())
    ∧ mbedtls_platform_gmtime_r
        (hook_gmtime_r (some EspTimeBackend.gmtime_r) emptyHooks)
        (some 253402300800) (some buf) = none := by
  refine ⟨rfl, ?_, rfl⟩
  intro t b h
  unfold EspTimeBackend.gmtime_r
  rw [h]

/-- Witness for C9 at the out-of-range timestamp. -/
theorem C9_gmtime_r_epoch_witness :
    EspTimeBackend.gmtime_r 253402300800 ⟨0, 0, 0, 0, 0, 0, 0, 0, 0⟩ = .error () :=
  (C9_gmtime_r_epoch ⟨0, 0, 0, 0, 0, 0, 0, 0, 0⟩).2.1 253402300800
    ⟨0, 0, 0, 0, 0, 0, 0, 0, 0⟩ rfl

/-- C10: the fallback engine ignores its optional `prec_rr` argument —
two calls identical except for `prec_rr` produce the same result and
the same event trace, the value referenced by `prec_rr` is left
unchanged, and the empty-slot trampoline outcome is likewise
independent of `prec_rr`. -/
theorem C10_prec_rr_ignored (env : MpiEnv) (x y m : Nat) (p1 p2 : Option Nat)
    (s : HookState) :
    (FallbackMpiExpMod.exp_mod env x y m p1).result
        = (FallbackMpiExpMod.exp_mod env x y m p2).result
    ∧ (FallbackMpiExpMod.exp_mod env x y m p1).events
        = (FallbackMpiExpMod.exp_mod env x y m p2).events
    ∧ (FallbackMpiExpMod.exp_mod env x y m p1).prec_rr = p1
    ∧ mbedtls_mpi_exp_mod_impl (hook_exp_mod none s) env x y m p1
        = mbedtls_mpi_exp_mod_impl (hook_exp_mod none s) env x y m p2 :=
  ⟨rfl, rfl, rfl, rfl⟩

end EspMbedtls
